import Mathlib

/-!
Verification of the luluco-typecast batch TTS scripts.

This file gives a shallow embedding of the pure orchestration logic of the
repository's five Python source files and proves (or refutes) the frozen
behavioural claims about them:

* `typecast_batch_tts.py`: `slugify`, `short_hash` (SHA-1 prefix), derived
  filenames from `load_manifest`, and the per-item loop of `main`.
* `generate_colors.py` / `generate_voice_assets_sample.py`: the `sample`
  helper on a seeded generator, the plan loop of `main` with atomic writes.
* `generate_voice_assets.py`: the plan loop with the empty-text guard.
* `config.py`: not needed by the claims beyond the defaults record.

Machine integers are `Nat` with explicit `% 2 ^ 32` reductions where the
Python code relies on fixed-width hashing; file-system effects are traces of
events; the external TTS service is an oracle parameter giving each item's
outcome (audio bytes or a raised exception).
-/

namespace Luluco

/-! ## Python string primitives used by the scripts -/

/-- Python `str.strip()` whitespace test, for the ASCII whitespace characters
(space, tab, newline, carriage return, vertical tab, form feed). -/
def pyIsSpace (c : Char) : Bool :=
  c == ' ' || c == '\t' || c == '\n' || c == '\r' || c == '\x0b' || c == '\x0c'

/-- Python `str.strip()` on the character list: drop leading and trailing
whitespace. -/
def pyStripChars (l : List Char) : List Char :=
  ((l.dropWhile pyIsSpace).reverse.dropWhile pyIsSpace).reverse

/-- Python `str.strip()`. -/
def pyStrip (s : String) : String :=
  String.mk (pyStripChars s.data)

/-- Python `str.lower()` restricted to its ASCII action (`A`-`Z` map to
`a`-`z`, everything else is returned unchanged; the Unicode tables of the
interpreter are outside the embedding and irrelevant to the claims, which
only concern the safe ASCII character class). -/
def pyLowerChar (c : Char) : Char :=
  if 'A' ≤ c && c ≤ 'Z' then Char.ofNat (c.toNat + 32) else c

/-- `str.lower()` over the character list. -/
def pyLower (l : List Char) : List Char :=
  l.map pyLowerChar

/-- Membership in the `SAFE_CHARS` regex class `[a-zA-Z0-9._-]` of
`typecast_batch_tts.py`. -/
def isSafeChar (c : Char) : Bool :=
  ('a' ≤ c && c ≤ 'z') || ('A' ≤ c && c ≤ 'Z') || ('0' ≤ c && c ≤ '9') ||
    c == '.' || c == '_' || c == '-'

/-- `SAFE_CHARS.sub("-", s)`: replace every maximal run of characters outside
the safe class by a single `-`.  The boolean records whether the previous
character belonged to an unsafe run (so the run collapses to one dash). -/
def subUnsafeGo : Bool → List Char → List Char
  | _, [] => []
  | prevUnsafe, c :: rest =>
    if isSafeChar c then c :: subUnsafeGo false rest
    else if prevUnsafe then subUnsafeGo true rest
    else '-' :: subUnsafeGo true rest

/-- `SAFE_CHARS.sub("-", s)` on a character list. -/
def subUnsafe (l : List Char) : List Char :=
  subUnsafeGo false l

/-- Python `str.strip("-")`: drop leading and trailing dashes. -/
def stripDashes (l : List Char) : List Char :=
  ((l.dropWhile (· == '-')).reverse.dropWhile (· == '-')).reverse

/-- The slug before the final length truncation: `s.strip().lower()` followed
by `SAFE_CHARS.sub("-", ...)` and `.strip("-")`
(`typecast_batch_tts.py:36-38`). -/
def slugFull (s : String) : List Char :=
  stripDashes (subUnsafe (pyLower (pyStripChars s.data)))

/-- `slugify(s, max_len=80)` from `typecast_batch_tts.py:36-39`:
the stripped slug truncated to at most `maxLen` characters. -/
def slugify (s : String) (maxLen : Nat := 80) : String :=
  String.mk ((slugFull s).take maxLen)

/-! ## SHA-1 (the hash behind `short_hash`)

`short_hash` in `typecast_batch_tts.py:42-43` is
`hashlib.sha1(s.encode("utf-8")).hexdigest()[:8]`.  We embed SHA-1 over byte
lists (bytes are `Nat < 256`, words are `Nat < 2 ^ 32`). -/

/-- Reduce to a 32-bit word. -/
def w32 (x : Nat) : Nat := x % 4294967296

/-- 32-bit left rotation (arguments are words `< 2 ^ 32`). -/
def rotl32 (n x : Nat) : Nat :=
  w32 (x <<< n) ||| (x >>> (32 - n))

/-- Big-endian byte decomposition: `beBytes k v` is the `k` low-order bytes
of `v`, most significant first. -/
def beBytes : Nat → Nat → List Nat
  | 0, _ => []
  | k + 1, v => beBytes k (v / 256) ++ [v % 256]

/-- SHA-1 message padding: append `0x80`, zero bytes to 56 mod 64, then the
bit length as a 64-bit big-endian integer. -/
def sha1Pad (m : List Nat) : List Nat :=
  m ++ [128] ++ List.replicate ((119 - m.length % 64) % 64) 0 ++ beBytes 8 (8 * m.length)

/-- Big-endian 32-bit word from four bytes. -/
def beWord (a b c d : Nat) : Nat :=
  ((a * 256 + b) * 256 + c) * 256 + d

/-- Split a byte list into big-endian 32-bit words. -/
def toWords : List Nat → List Nat
  | a :: b :: c :: d :: rest => beWord a b c d :: toWords rest
  | _ => []

/-- One extension step of the SHA-1 message schedule, iterated `k` times:
append `rotl1 (W[t-3] xor W[t-8] xor W[t-14] xor W[t-16])`. -/
def sha1Extend : Nat → List Nat → List Nat
  | 0, w => w
  | k + 1, w =>
    let n := w.length
    sha1Extend k
      (w ++ [rotl32 1 (w.getD (n - 3) 0 ^^^ w.getD (n - 8) 0 ^^^
                       w.getD (n - 14) 0 ^^^ w.getD (n - 16) 0)])

/-- The SHA-1 round function for round `t`. -/
def sha1F (t b c d : Nat) : Nat :=
  if t < 20 then (b &&& c) ||| ((b ^^^ 4294967295) &&& d)
  else if t < 40 then b ^^^ c ^^^ d
  else if t < 60 then (b &&& c) ||| (b &&& d) ||| (c &&& d)
  else b ^^^ c ^^^ d

/-- The SHA-1 round constant for round `t`. -/
def sha1K (t : Nat) : Nat :=
  if t < 20 then 1518500249
  else if t < 40 then 1859775393
  else if t < 60 then 2400959708
  else 3395469782

/-- The 80 compression rounds, folding over the extended schedule. -/
def sha1Rounds : Nat → List Nat → Nat × Nat × Nat × Nat × Nat → Nat × Nat × Nat × Nat × Nat
  | _, [], st => st
  | t, wt :: rest, (a, b, c, d, e) =>
    let tmp := w32 (rotl32 5 a + sha1F t b c d + e + sha1K t + wt)
    sha1Rounds (t + 1) rest (tmp, a, rotl32 30 b, c, d)

/-- Process one 64-byte block. -/
def sha1Block (block : List Nat) (h : Nat × Nat × Nat × Nat × Nat) :
    Nat × Nat × Nat × Nat × Nat :=
  let (h0, h1, h2, h3, h4) := h
  let w := sha1Extend 64 (toWords block)
  let (a, b, c, d, e) := sha1Rounds 0 w (h0, h1, h2, h3, h4)
  (w32 (h0 + a), w32 (h1 + b), w32 (h2 + c), w32 (h3 + d), w32 (h4 + e))

/-- Process 64-byte blocks; `fuel` bounds the number of blocks. -/
def sha1Blocks : Nat → List Nat → Nat × Nat × Nat × Nat × Nat → Nat × Nat × Nat × Nat × Nat
  | 0, _, h => h
  | _ + 1, [], h => h
  | fuel + 1, bytes, h => sha1Blocks fuel (bytes.drop 64) (sha1Block (bytes.take 64) h)

/-- SHA-1 digest of a byte list, as the list of 20 digest bytes. -/
def sha1Bytes (m : List Nat) : List Nat :=
  let p := sha1Pad m
  let (h0, h1, h2, h3, h4) :=
    sha1Blocks (p.length / 64 + 1) p
      (1732584193, 4023233417, 2562383102, 271733878, 3285377520)
  beBytes 4 h0 ++ beBytes 4 h1 ++ beBytes 4 h2 ++ beBytes 4 h3 ++ beBytes 4 h4

/-- Lowercase hex digit for `n < 16`. -/
def hexChar (n : Nat) : Char :=
  if n < 10 then Char.ofNat (48 + n) else Char.ofNat (87 + n)

/-- Two hex digits of one byte. -/
def byteHex (b : Nat) : List Char :=
  [hexChar (b / 16), hexChar (b % 16)]

/-- `hashlib.sha1(...).hexdigest()` as a character list (40 hex digits). -/
def sha1HexChars (m : List Nat) : List Char :=
  ((sha1Bytes m).map byteHex).flatten

/-- UTF-8 encoding of one code point. -/
def utf8Bytes (c : Nat) : List Nat :=
  if c < 128 then [c]
  else if c < 2048 then [192 + c / 64, 128 + c % 64]
  else if c < 65536 then [224 + c / 4096, 128 + c / 64 % 64, 128 + c % 64]
  else [240 + c / 262144, 128 + c / 4096 % 64, 128 + c / 64 % 64, 128 + c % 64]

/-- `s.encode("utf-8")` as a byte list. -/
def strBytes (s : String) : List Nat :=
  (s.data.map (fun c => utf8Bytes c.toNat)).flatten

/-- `short_hash(s, n=8)` from `typecast_batch_tts.py:42-43`: the first 8 hex
digits of the SHA-1 of the UTF-8 encoding. -/
def shortHash (s : String) : String :=
  String.mk ((sha1HexChars (strBytes s)).take 8)

/-- The filename computed by `load_manifest` (`typecast_batch_tts.py:128-133`):
the explicit `filename` field when present, otherwise
`slugify(set-key) + "-" + short_hash(text) + "." + output_format`. -/
def lineFilename (setName key text outputFormat : String)
    (explicit : Option String) : String :=
  match explicit with
  | some f => f
  | none => slugify (setName ++ "-" ++ key) ++ "-" ++ shortHash text ++ "." ++ outputFormat

/-! ## The seeded sampler (`generate_colors.py:95-100`,
`generate_voice_assets_sample.py:87-92`)

Modelled from the spec: the Python standard library generator
`random.Random(seed)` and its method `sample` are outside `src/` (the spec
places the standard library out of scope).  We model the generator as a pure
deterministic stream of raw values derived from the seed by a 64-bit linear
congruential mixer (a stand-in for the Mersenne Twister: the claims depend
only on the stream being a pure function of the seed, never on its concrete
values), and `Random.sample` by its partial Fisher-Yates "pool" algorithm
(CPython's other branch, the selection-set loop, draws the same number of
items without replacement; the branch choice does not affect any claim). -/

/-- The generator state: a pure function of the seed and the number of draws
made so far. -/
structure PyRandom where
  state : Nat
deriving Repr, DecidableEq

/-- `random.Random(seed)`. -/
def mkRandom (seed : Nat) : PyRandom :=
  ⟨seed % 18446744073709551616⟩

/-- One draw below `bound` (`Random._randbelow`): advance the stream and
reduce modulo the bound. -/
def pyRandbelow (g : PyRandom) (bound : Nat) : Nat × PyRandom :=
  let s := (g.state * 6364136223846793005 + 1442695040888963407) % 18446744073709551616
  (s % bound, ⟨s⟩)

/-- An utterance: the `(id, text)` pair extracted from YAML. -/
abbrev Utt := String × String

/-- `Random.sample(pool, k)` by the partial Fisher-Yates pool algorithm:
draw an index `j` below the live pool size, take `pool[j]`, move the last
live element into slot `j`, and shrink the pool. -/
def pySample : List Utt → Nat → PyRandom → List Utt × PyRandom
  | _, 0, g => ([], g)
  | pool, k' + 1, g =>
    let j := (pyRandbelow g pool.length).1
    let g' := (pyRandbelow g pool.length).2
    let res := pySample ((pool.set j (pool.getLastD default)).dropLast) k' g'
    (pool.getD j default :: res.1, res.2)

/-- `sample(items, n, rng)` from `generate_colors.py:95-100` (the identical
function also appears in `generate_voice_assets_sample.py:87-92`): empty
result when `n <= 0` or the population is empty, the whole population when
`n >= len(items)`, otherwise `rng.sample(items, n)`.  The requested count is
an `Int` (the CLI parses it with `type=int`, so it may be negative); the
mutated generator is returned explicitly. -/
def sample (items : List Utt) (n : Int) (rng : PyRandom) : List Utt × PyRandom :=
  if n ≤ 0 ∨ items = [] then ([], rng)
  else if (items.length : Int) ≤ n then (items, rng)
  else pySample items n.toNat rng

/-- The sampling stage of `generate_colors.main` (`generate_colors.py:129-143`):
seed the generator, then either keep everything (`--all`) or sample the long
and the short lists in that order, threading the generator state. -/
def selectColors (seed : Nat) (longU shortU : List Utt) (nLong nShort : Int)
    (allFlag : Bool) : List Utt × List Utt :=
  let rng := mkRandom seed
  if allFlag then (longU, shortU)
  else
    let (sl, rng') := sample longU nLong rng
    let (ss, _) := sample shortU nShort rng'
    (sl, ss)

/-- The sampling stage of `generate_voice_assets_sample.main`
(`generate_voice_assets_sample.py:126-134`): seven sequential `sample` calls
on the shared seeded generator, in source order. -/
def selectSampleAssets (seed : Nat)
    (prefixes suffixes colors tools micros compNE compOK : List Utt)
    (nPrefix nSuffix nColor nTool nMicro nCompNE nCompOK : Int) :
    List Utt × List Utt × List Utt × List Utt × List Utt × List Utt × List Utt :=
  let rng := mkRandom seed
  let (p, rng) := sample prefixes nPrefix rng
  let (s, rng) := sample suffixes nSuffix rng
  let (c, rng) := sample colors nColor rng
  let (t, rng) := sample tools nTool rng
  let (m, rng) := sample micros nMicro rng
  let (ne, rng) := sample compNE nCompNE rng
  let (ok, _) := sample compOK nCompOK rng
  (p, s, c, t, m, ne, ok)

/-! ## The per-item generation loops

The file system is modelled by the initial existence predicate `fs0` plus the
list of destination paths written during the run; mutations are recorded as a
trace of events.  A `writeBytes` event is a plain `Path.write_bytes` - the
operation during which a partially written file is visible at its path; a
`rename` event is `Path.replace` - atomic.  The external TTS service is an
oracle mapping each plan entry to its outcome (returned audio bytes, or a
raised exception message). -/

/-- One file-system mutation. -/
inductive FsEvent
  | writeBytes (path : String) (data : List Nat)
  | rename (src dst : String)
deriving Repr, DecidableEq

/-- The outcome of one `cli.text_to_speech` call. -/
inductive TtsOutcome
  | ok (audio : List Nat)
  | exn (msg : String)
deriving Repr, DecidableEq

/-- A plan entry of `generate_colors.py` / `generate_voice_assets*.py`:
`(subdir, clip_id, text)` (the extra group key of `generate_voice_assets.py`
only feeds progress printing). -/
structure Entry where
  subdir : String
  id : String
  text : String
deriving Repr, DecidableEq

/-- `out_path = subdir / f"{clip_id}{ext}"`. -/
def entryDest (ext : String) (e : Entry) : String :=
  e.subdir ++ "/" ++ e.id ++ ext

/-- The mutable state of one generation run: the three counters, the
destination paths written so far, the ids for which the TTS call was invoked
(in order), the error log of `(id, message)` pairs, and the file-system event
trace. -/
structure RunState where
  generated : Nat
  skipped : Nat
  failed : Nat
  written : List String
  calls : List String
  errlog : List (String × String)
  events : List FsEvent
deriving Repr, DecidableEq

/-- The state at loop entry: all counters zero, nothing written. -/
def initState : RunState := ⟨0, 0, 0, [], [], [], []⟩

/-- `out_path.exists()`: true when the path existed initially or was written
earlier in this run. -/
def fileExists (fs0 : String → Bool) (s : RunState) (p : String) : Bool :=
  fs0 p || s.written.contains p

/-- `write_bytes_atomic(path, data)` (`generate_colors.py:53-56`): write the
temporary sibling `path + ".tmp"`, then atomically rename it onto `path`
(`Path.with_suffix` appends `".tmp"` to the existing suffix). -/
def atomicWriteEvents (path : String) (data : List Nat) : List FsEvent :=
  [.writeBytes (path ++ ".tmp") data, .rename (path ++ ".tmp") path]

/-- One iteration of the plan loop of `generate_colors.main`
(`generate_colors.py:176-197`; `generate_voice_assets_sample.py:176-197` is
identical): skip existing destinations unless `--force`, count dry-run
entries as generated, otherwise invoke the TTS call and either write
atomically and count `generated` or catch the exception, log it with the
clip id, and count `failed`. -/
def colorsStep (ext : String) (force dryRun : Bool) (fs0 : String → Bool)
    (outcome : Entry → TtsOutcome) (s : RunState) (e : Entry) : RunState :=
  let p := entryDest ext e
  if fileExists fs0 s p && !force then
    { s with skipped := s.skipped + 1 }
  else if dryRun then
    { s with generated := s.generated + 1 }
  else
    match outcome e with
    | .ok audio =>
        { s with generated := s.generated + 1,
                 written := s.written ++ [p],
                 calls := s.calls ++ [e.id],
                 events := s.events ++ atomicWriteEvents p audio }
    | .exn m =>
        { s with failed := s.failed + 1,
                 calls := s.calls ++ [e.id],
                 errlog := s.errlog ++ [(e.id, m)] }

/-- The whole plan loop of `generate_colors.main`. -/
def runColors (ext : String) (force dryRun : Bool) (fs0 : String → Bool)
    (outcome : Entry → TtsOutcome) (plan : List Entry) (s : RunState) : RunState :=
  plan.foldl (colorsStep ext force dryRun fs0 outcome) s

/-- `generate_colors.main` around the loop (`generate_colors.py:121-205`):
exit code 2 when the YAML manifest is missing, 0 when the plan is empty, and
otherwise 1 exactly when some item failed. -/
def mainColors (yamlFound : Bool) (ext : String) (force dryRun : Bool)
    (fs0 : String → Bool) (outcome : Entry → TtsOutcome) (plan : List Entry) : Nat :=
  if !yamlFound then 2
  else if plan.isEmpty then 0
  else if (runColors ext force dryRun fs0 outcome plan initState).failed != 0 then 1
  else 0

/-- One iteration of the plan loop of `generate_voice_assets.main`
(`generate_voice_assets.py:173-214`): as `colorsStep`, with the extra guard
skipping empty or whitespace-only text before the dry-run check. -/
def assetsStep (ext : String) (force dryRun : Bool) (fs0 : String → Bool)
    (outcome : Entry → TtsOutcome) (s : RunState) (e : Entry) : RunState :=
  let p := entryDest ext e
  if fileExists fs0 s p && !force then
    { s with skipped := s.skipped + 1 }
  else if e.text == "" || pyStrip e.text == "" then
    { s with skipped := s.skipped + 1 }
  else if dryRun then
    { s with generated := s.generated + 1 }
  else
    match outcome e with
    | .ok audio =>
        { s with generated := s.generated + 1,
                 written := s.written ++ [p],
                 calls := s.calls ++ [e.id],
                 events := s.events ++ atomicWriteEvents p audio }
    | .exn m =>
        { s with failed := s.failed + 1,
                 calls := s.calls ++ [e.id],
                 errlog := s.errlog ++ [(e.id, m)] }

/-- The whole plan loop of `generate_voice_assets.main`. -/
def runAssets (ext : String) (force dryRun : Bool) (fs0 : String → Bool)
    (outcome : Entry → TtsOutcome) (plan : List Entry) (s : RunState) : RunState :=
  plan.foldl (assetsStep ext force dryRun fs0 outcome) s

/-! ### `typecast_batch_tts.py` -/

/-- A manifest line as consumed by the loop of `typecast_batch_tts.main`
(the synthesis parameters are opaque to the claims). -/
structure TItem where
  key : String
  filename : String
  text : String
deriving Repr, DecidableEq

/-- The loop state of `typecast_batch_tts.main`: `planned`, `generated` and
`skipped` counters (there is no `failed` counter), written paths, invoked
keys, and the event trace. -/
structure TState where
  planned : Nat
  generated : Nat
  skipped : Nat
  written : List String
  calls : List String
  events : List FsEvent
deriving Repr, DecidableEq

/-- The typecast loop state at entry. -/
def initTState : TState := ⟨0, 0, 0, [], [], []⟩

/-- One iteration of the loop of `typecast_batch_tts.main`
(`typecast_batch_tts.py:227-244`): count the item as planned, skip existing
destinations unless `--overwrite`, print-only on dry-run (no counter),
otherwise invoke the TTS call - an exception propagates (`Except.error`,
carrying the state at the abort) - and on success write the bytes DIRECTLY to
the destination and count `generated`. -/
def typecastStep (outDir : String) (overwrite dryRun : Bool) (fs0 : String → Bool)
    (outcome : TItem → TtsOutcome) (s : TState) (it : TItem) :
    Except (TState × String) TState :=
  let dest := outDir ++ "/" ++ it.filename
  let s := { s with planned := s.planned + 1 }
  if (fs0 dest || s.written.contains dest) && !overwrite then
    .ok { s with skipped := s.skipped + 1 }
  else if dryRun then
    .ok s
  else
    match outcome it with
    | .exn m => .error ({ s with calls := s.calls ++ [it.key] }, m)
    | .ok audio =>
        .ok { s with calls := s.calls ++ [it.key],
                     events := s.events ++ [.writeBytes dest audio],
                     written := s.written ++ [dest],
                     generated := s.generated + 1 }

/-- The whole loop of `typecast_batch_tts.main`: an uncaught exception aborts
the remaining items. -/
def runTypecast (outDir : String) (overwrite dryRun : Bool) (fs0 : String → Bool)
    (outcome : TItem → TtsOutcome) (items : List TItem) (s : TState) :
    Except (TState × String) TState :=
  match items with
  | [] => .ok s
  | it :: rest =>
    match typecastStep outDir overwrite dryRun fs0 outcome s it with
    | .error e => .error e
    | .ok s' => runTypecast outDir overwrite dryRun fs0 outcome rest s'

/-- `typecast_batch_tts.main` after a completed loop returns 0 unconditionally
(`typecast_batch_tts.py:247`); an uncaught exception (including the
`FileNotFoundError` of a missing manifest, which `main` never checks for)
aborts the process instead. -/
def mainTypecast (outDir : String) (overwrite dryRun : Bool) (fs0 : String → Bool)
    (outcome : TItem → TtsOutcome) (items : List TItem) : Except (TState × String) Nat :=
  match runTypecast outDir overwrite dryRun fs0 outcome items initTState with
  | .error e => .error e
  | .ok _ => .ok 0

/-- The per-line validation of `load_manifest`
(`typecast_batch_tts.py:108-133`) restricted to the fields the claims touch:
a falsy (empty) key or text raises `ValueError` and aborts the whole load;
otherwise the item is built with the derived (or explicit) filename. -/
def loadLine (setName key text outputFormat : String) (explicit : Option String) :
    Except String TItem :=
  if key == "" || text == "" then
    .error ("Line in set '" ++ setName ++ "' must include key and text.")
  else
    .ok ⟨key, lineFilename setName key text outputFormat explicit, text⟩

/-! ## Predicates used by the claim statements -/

/-- The character class of a finished slug: lowercase letters, digits, and
`.`, `_`, `-`. -/
def isSafeOutChar (c : Char) : Bool :=
  ('a' ≤ c && c ≤ 'z') || ('0' ≤ c && c ≤ '9') || c == '.' || c == '_' || c == '-'

/-- A file-system event compatible with the write-temp-then-rename pattern:
either a byte write to some temporary sibling `p ++ ".tmp"`, or an atomic
rename of a temporary sibling onto its destination.  A destination path
(which never ends in `".tmp"`) is then only ever created atomically. -/
def atomicShaped (ev : FsEvent) : Prop :=
  (∃ p d, ev = .writeBytes (p ++ ".tmp") d) ∨ ∃ p, ev = .rename (p ++ ".tmp") p

/-! ## Counter bookkeeping (claim C9) -/

/-- Every iteration of the colors loop settles its entry into exactly one of
the three counters. -/
theorem colorsStep_counts (ext : String) (force dryRun : Bool) (fs0 : String → Bool)
    (outcome : Entry → TtsOutcome) (s : RunState) (e : Entry) :
    (colorsStep ext force dryRun fs0 outcome s e).generated +
      (colorsStep ext force dryRun fs0 outcome s e).skipped +
      (colorsStep ext force dryRun fs0 outcome s e).failed =
    s.generated + s.skipped + s.failed + 1 := by
  unfold colorsStep
  cases force <;> cases dryRun <;>
    by_cases hex : fileExists fs0 s (entryDest ext e) = true <;>
    cases h3 : outcome e <;> simp [hex, h3] <;> omega

/-- Every iteration of the voice-assets loop settles its entry into exactly
one of the three counters. -/
theorem assetsStep_counts (ext : String) (force dryRun : Bool) (fs0 : String → Bool)
    (outcome : Entry → TtsOutcome) (s : RunState) (e : Entry) :
    (assetsStep ext force dryRun fs0 outcome s e).generated +
      (assetsStep ext force dryRun fs0 outcome s e).skipped +
      (assetsStep ext force dryRun fs0 outcome s e).failed =
    s.generated + s.skipped + s.failed + 1 := by
  unfold assetsStep
  cases force <;> cases dryRun <;>
    by_cases hex : fileExists fs0 s (entryDest ext e) = true <;>
    by_cases hb : (e.text == "" || pyStrip e.text == "") = true <;>
    cases h3 : outcome e <;> simp [hex, hb, h3] <;> omega

/-- Accumulated form of the counter invariant for the colors loop. -/
theorem runColors_counts (ext : String) (force dryRun : Bool) (fs0 : String → Bool)
    (outcome : Entry → TtsOutcome) (plan : List Entry) :
    ∀ s : RunState,
      (runColors ext force dryRun fs0 outcome plan s).generated +
        (runColors ext force dryRun fs0 outcome plan s).skipped +
        (runColors ext force dryRun fs0 outcome plan s).failed =
      s.generated + s.skipped + s.failed + plan.length := by
  induction plan with
  | nil => intro s; simp [runColors]
  | cons e rest ih =>
    intro s
    have h1 := colorsStep_counts ext force dryRun fs0 outcome s e
    have h2 := ih (colorsStep ext force dryRun fs0 outcome s e)
    simp only [runColors, List.foldl_cons] at h2 ⊢
    rw [h2]
    simp only [List.length_cons]
    omega

/-- Accumulated form of the counter invariant for the voice-assets loop. -/
theorem runAssets_counts (ext : String) (force dryRun : Bool) (fs0 : String → Bool)
    (outcome : Entry → TtsOutcome) (plan : List Entry) :
    ∀ s : RunState,
      (runAssets ext force dryRun fs0 outcome plan s).generated +
        (runAssets ext force dryRun fs0 outcome plan s).skipped +
        (runAssets ext force dryRun fs0 outcome plan s).failed =
      s.generated + s.skipped + s.failed + plan.length := by
  induction plan with
  | nil => intro s; simp [runAssets]
  | cons e rest ih =>
    intro s
    have h1 := assetsStep_counts ext force dryRun fs0 outcome s e
    have h2 := ih (assetsStep ext force dryRun fs0 outcome s e)
    simp only [runAssets, List.foldl_cons] at h2 ⊢
    rw [h2]
    simp only [List.length_cons]
    omega

/-- C9: in every run of the per-item loops of `generate_colors.py` and
`generate_voice_assets.py`, the counters `generated + skipped + failed`
equal the number of plan entries processed so far - at every iteration
(the run over any `plan.take i` prefix) and at termination (where the sum is
the full plan length). -/
theorem counters_partition_processed (ext : String) (force dryRun : Bool)
    (fs0 : String → Bool) (outcome : Entry → TtsOutcome) (plan : List Entry) :
    ((runColors ext force dryRun fs0 outcome plan initState).generated +
       (runColors ext force dryRun fs0 outcome plan initState).skipped +
       (runColors ext force dryRun fs0 outcome plan initState).failed = plan.length) ∧
    ((runAssets ext force dryRun fs0 outcome plan initState).generated +
       (runAssets ext force dryRun fs0 outcome plan initState).skipped +
       (runAssets ext force dryRun fs0 outcome plan initState).failed = plan.length) ∧
    (∀ i : Nat,
      (runColors ext force dryRun fs0 outcome (plan.take i) initState).generated +
        (runColors ext force dryRun fs0 outcome (plan.take i) initState).skipped +
        (runColors ext force dryRun fs0 outcome (plan.take i) initState).failed =
      min i plan.length) ∧
    (∀ i : Nat,
      (runAssets ext force dryRun fs0 outcome (plan.take i) initState).generated +
        (runAssets ext force dryRun fs0 outcome (plan.take i) initState).skipped +
        (runAssets ext force dryRun fs0 outcome (plan.take i) initState).failed =
      min i plan.length) := by
  refine ⟨?_, ?_, fun i => ?_, fun i => ?_⟩
  · simpa [initState] using runColors_counts ext force dryRun fs0 outcome plan initState
  · simpa [initState] using runAssets_counts ext force dryRun fs0 outcome plan initState
  · simpa [initState, List.length_take] using
      runColors_counts ext force dryRun fs0 outcome (plan.take i) initState
  · simpa [initState, List.length_take] using
      runAssets_counts ext force dryRun fs0 outcome (plan.take i) initState

/-! ## Determinism of the sampling stage (claim C6) -/

/-- C6: the sampling stages of `generate_colors.py` and
`generate_voice_assets_sample.py` are pure functions of the seed and the
input populations and counts: two runs with the same seed and the same
inputs select the identical subsets in the identical order. -/
theorem sampling_deterministic (seed seed' : Nat) (longU shortU : List Utt)
    (nLong nShort : Int) (allFlag : Bool)
    (pre suf col too mic cne cok : List Utt) (n1 n2 n3 n4 n5 n6 n7 : Int)
    (hs : seed = seed') :
    selectColors seed longU shortU nLong nShort allFlag =
      selectColors seed' longU shortU nLong nShort allFlag ∧
    selectSampleAssets seed pre suf col too mic cne cok n1 n2 n3 n4 n5 n6 n7 =
      selectSampleAssets seed' pre suf col too mic cne cok n1 n2 n3 n4 n5 n6 n7 := by
  subst hs
  exact ⟨rfl, rfl⟩

/-- Witness for C6 at a concrete seed and population. -/
theorem sampling_deterministic_witness :
    selectColors 7 [("a", "1"), ("b", "2"), ("c", "3")] [("d", "4")] 2 1 false =
      selectColors 7 [("a", "1"), ("b", "2"), ("c", "3")] [("d", "4")] 2 1 false ∧
    selectSampleAssets 7 [("a", "1")] [] [] [] [] [] [] 1 0 0 0 0 0 0 =
      selectSampleAssets 7 [("a", "1")] [] [] [] [] [] [] 1 0 0 0 0 0 0 :=
  sampling_deterministic 7 7 [("a", "1"), ("b", "2"), ("c", "3")] [("d", "4")] 2 1 false
    [("a", "1")] [] [] [] [] [] [] 1 0 0 0 0 0 0 rfl

/-! ## Skip-if-exists (claim C8) -/

/-- C8: in every script, a plan entry whose destination already exists is
counted as skipped and the synthesis call is never invoked for it, when the
force/overwrite flag is unset: the step returns the state with only `skipped`
incremented (so `calls`, `written` and `events` are untouched).  The three
conjuncts cover `generate_colors.py` / `generate_voice_assets_sample.py`
(shared loop body), `generate_voice_assets.py`, and
`typecast_batch_tts.py` (whose step also counts `planned`). -/
theorem skip_existing_never_calls (ext outDir : String) (force dryRun tdry : Bool)
    (overwrite : Bool) (fs0 : String → Bool) (outcome : Entry → TtsOutcome)
    (toutcome : TItem → TtsOutcome) (s : RunState) (t : TState) (e : Entry) (it : TItem)
    (hex : fileExists fs0 s (entryDest ext e) = true) (hf : force = false)
    (htex : (fs0 (outDir ++ "/" ++ it.filename) ||
             t.written.contains (outDir ++ "/" ++ it.filename)) = true)
    (ho : overwrite = false) :
    colorsStep ext force dryRun fs0 outcome s e = { s with skipped := s.skipped + 1 } ∧
    assetsStep ext force dryRun fs0 outcome s e = { s with skipped := s.skipped + 1 } ∧
    typecastStep outDir overwrite tdry fs0 toutcome t it =
      .ok { t with planned := t.planned + 1, skipped := t.skipped + 1 } := by
  subst hf ho
  refine ⟨?_, ?_, ?_⟩
  · simp [colorsStep, hex]
  · simp [assetsStep, hex]
  · have h := htex
    simp only [Bool.or_eq_true] at h
    rcases h with h | h
    · simp [typecastStep, h]
    · simp at h
      simp [typecastStep, h]

/-- Witness for C8: a destination that already exists in the initial file
system is skipped without a call, in all three loop bodies. -/
theorem skip_existing_never_calls_witness :
    colorsStep ".mp3" false false (fun p => p == "long/c1.mp3" || p == "out/f1.mp3")
        (fun _ => .ok [7]) initState ⟨"long", "c1", "x"⟩ =
      { initState with skipped := initState.skipped + 1 } ∧
    assetsStep ".mp3" false false (fun p => p == "long/c1.mp3" || p == "out/f1.mp3")
        (fun _ => .ok [7]) initState ⟨"long", "c1", "x"⟩ =
      { initState with skipped := initState.skipped + 1 } ∧
    typecastStep "out" false false (fun p => p == "long/c1.mp3" || p == "out/f1.mp3")
        (fun _ => .ok [7]) initTState ⟨"k1", "f1.mp3", "hi"⟩ =
      .ok { initTState with planned := initTState.planned + 1, skipped := initTState.skipped + 1 } :=
  skip_existing_never_calls ".mp3" "out" false false false false
    (fun p => p == "long/c1.mp3" || p == "out/f1.mp3") (fun _ => .ok [7]) (fun _ => .ok [7])
    initState initTState ⟨"long", "c1", "x"⟩ ⟨"k1", "f1.mp3", "hi"⟩
    (by decide) rfl (by decide) rfl

/-! ## Error handling of the per-item loops (claims C2, C3) -/

/-- C2 counterexample: in `typecast_batch_tts.py` an exception raised by the
synthesis call for the first item is not caught: the run aborts as an
uncaught exception (the `Except.error`), the second item is never attempted
(`planned` stays 1 and `calls` has only `"k1"`), nothing is counted as
failed, and no exit code 1 is produced (`mainTypecast` never returns).  This
refutes the claim's universal statement over the cited scripts. -/
theorem typecast_exception_aborts_run :
    runTypecast "out" false false (fun _ => false)
        (fun it => if it.key == "k1" then .exn "boom" else .ok [1])
        [⟨"k1", "f1.mp3", "a"⟩, ⟨"k2", "f2.mp3", "b"⟩] initTState =
      .error (⟨1, 0, 0, [], ["k1"], []⟩, "boom") ∧
    mainTypecast "out" false false (fun _ => false)
        (fun it => if it.key == "k1" then .exn "boom" else .ok [1])
        [⟨"k1", "f1.mp3", "a"⟩, ⟨"k2", "f2.mp3", "b"⟩] =
      .error (⟨1, 0, 0, [], ["k1"], []⟩, "boom") :=
  ⟨rfl, rfl⟩

/-- C2 (amended): in the three `generate_*` scripts (the loop body of
`generate_colors.py` is shared verbatim with
`generate_voice_assets_sample.py`, and `generate_voice_assets.py` behaves
identically on failures), an exception from the synthesis call is caught:
the item is logged with its id, `failed` is incremented, and the loop
continues with every subsequent item (the run over `xs ++ ys` is the run
over `ys` started from the state after `xs`, whatever failed in `xs`); the
exit code is 2 when the manifest is missing and otherwise 1 exactly when
some item failed. -/
theorem colors_error_handling (ext : String) (force dryRun : Bool)
    (fs0 : String → Bool) (outcome : Entry → TtsOutcome) :
    (∀ (xs ys : List Entry) (s : RunState),
      runColors ext force dryRun fs0 outcome (xs ++ ys) s =
        runColors ext force dryRun fs0 outcome ys
          (runColors ext force dryRun fs0 outcome xs s)) ∧
    (∀ (s : RunState) (e : Entry) (m : String),
      (fileExists fs0 s (entryDest ext e) && !force) = false → dryRun = false →
      outcome e = .exn m →
      colorsStep ext force dryRun fs0 outcome s e =
        { s with failed := s.failed + 1, calls := s.calls ++ [e.id],
                 errlog := s.errlog ++ [(e.id, m)] } ∧
      assetsStep ext force dryRun fs0 outcome s e =
        { s with failed := s.failed + 1, calls := s.calls ++ [e.id],
                 errlog := s.errlog ++ [(e.id, m)] } ∨
      (e.text == "" || pyStrip e.text == "") = true) ∧
    (∀ plan, mainColors false ext force dryRun fs0 outcome plan = 2) ∧
    (∀ plan, mainColors true ext force dryRun fs0 outcome plan =
      if (runColors ext force dryRun fs0 outcome plan initState).failed ≠ 0 then 1 else 0) := by
  refine ⟨?_, ?_, ?_, ?_⟩
  · intro xs ys s
    simp [runColors, List.foldl_append]
  · intro s e m hc hd hm
    subst hd
    by_cases hb : (e.text == "" || pyStrip e.text == "") = true
    · exact Or.inr hb
    · refine Or.inl ⟨?_, ?_⟩
      · simp only [colorsStep]
        simp [hc, hm]
      · simp only [assetsStep]
        simp [hc, hb, hm]
  · intro plan
    simp [mainColors]
  · intro plan
    cases plan with
    | nil => simp [mainColors, runColors, initState]
    | cons e rest =>
      simp only [mainColors, Bool.not_true, Bool.false_eq_true, if_false, List.isEmpty_cons]
      rcases Nat.eq_zero_or_pos
          (runColors ext force dryRun fs0 outcome (e :: rest) initState).failed with h | h <;>
        simp [h]

/-- Witness for C2 at a concrete failing item: the colors loop body counts
the failure, logs the id, and the run continuation equation holds for a
concrete split. -/
theorem colors_error_handling_witness :
    colorsStep ".mp3" false false (fun _ => false)
        (fun _ => .exn "boom") initState ⟨"long", "c1", "x"⟩ =
      { initState with failed := initState.failed + 1,
                       calls := initState.calls ++ ["c1"],
                       errlog := initState.errlog ++ [("c1", "boom")] } ∧
    assetsStep ".mp3" false false (fun _ => false)
        (fun _ => .exn "boom") initState ⟨"long", "c1", "x"⟩ =
      { initState with failed := initState.failed + 1,
                       calls := initState.calls ++ ["c1"],
                       errlog := initState.errlog ++ [("c1", "boom")] } := by
  have h := (colors_error_handling ".mp3" false false (fun _ => false)
      (fun _ => .exn "boom")).2.1 initState ⟨"long", "c1", "x"⟩ "boom"
      (by decide) rfl rfl
  rcases h with ⟨h1, h2⟩ | h
  · exact ⟨h1, h2⟩
  · exact absurd h (by decide)

/-- C3 counterexample: `generate_colors.py` has no empty-text guard: for a
plan entry whose text is empty the synthesis call IS invoked (`calls` ends
up `["c1"]`) and the entry is counted as generated, not skipped.  This
refutes the claim's "in every generation script". -/
theorem colors_empty_text_invokes_call :
    runColors ".mp3" false false (fun _ => false) (fun _ => .ok [7])
        [⟨"long", "c1", ""⟩] initState =
      ⟨1, 0, 0, ["long/c1.mp3"], ["c1"], [],
        [.writeBytes "long/c1.mp3.tmp" [7], .rename "long/c1.mp3.tmp" "long/c1.mp3"]⟩ :=
  rfl

/-- C3 (amended): only `generate_voice_assets.py` skips empty or
whitespace-only text, counting it as skipped and never invoking the call;
`typecast_batch_tts.py` instead rejects empty text at manifest load
(`ValueError` aborting the whole load) while whitespace-only text passes
validation and is synthesized like any other; and `generate_colors.py` /
`generate_voice_assets_sample.py` invoke the call for such entries (the
counterexample).  Conjuncts: (1) the voice-assets loop body on blank text
only increments `skipped`; (2) `load_manifest` errors on empty text;
(3) whitespace-only text is loaded successfully; (4) the typecast loop body
invokes the call for a whitespace-only item (its key enters `calls`). -/
theorem empty_text_handling (ext outDir : String) (force dryRun overwrite : Bool)
    (fs0 : String → Bool) (outcome : Entry → TtsOutcome) (toutcome : TItem → TtsOutcome) :
    (∀ (s : RunState) (e : Entry),
      (e.text == "" || pyStrip e.text == "") = true →
      (fileExists fs0 s (entryDest ext e) && !force) = false →
      assetsStep ext force dryRun fs0 outcome s e = { s with skipped := s.skipped + 1 }) ∧
    (∀ setName key fmt expl,
      loadLine setName key "" fmt expl =
        .error ("Line in set '" ++ setName ++ "' must include key and text.")) ∧
    (∀ setName key fmt, key ≠ "" →
      loadLine setName key " " fmt none =
        .ok ⟨key, lineFilename setName key " " fmt none, " "⟩) ∧
    (∀ (s : TState) (it : TItem) (audio : List Nat),
      ((fs0 (outDir ++ "/" ++ it.filename) ||
        s.written.contains (outDir ++ "/" ++ it.filename)) && !overwrite) = false →
      toutcome it = .ok audio →
      typecastStep outDir overwrite false fs0 toutcome s it =
        .ok { s with planned := s.planned + 1, generated := s.generated + 1,
                     written := s.written ++ [outDir ++ "/" ++ it.filename],
                     calls := s.calls ++ [it.key],
                     events := s.events ++
                       [.writeBytes (outDir ++ "/" ++ it.filename) audio] }) := by
  refine ⟨?_, ?_, ?_, ?_⟩
  · intro s e hb hc
    simp only [assetsStep]
    simp [hb, hc]
  · intro setName key fmt expl
    simp [loadLine]
  · intro setName key fmt hk
    simp [loadLine, hk]
  · intro s it audio hc ho
    rcases Bool.and_eq_false_iff.mp hc with h | h
    · simp only [Bool.or_eq_false_iff] at h
      obtain ⟨h1, h2⟩ := h
      have h2' : outDir ++ "/" ++ it.filename ∉ s.written := by simpa using h2
      simp [typecastStep, h1, h2', ho]
    · have hov : overwrite = true := by simpa using h
      simp [typecastStep, hov, ho]

/-- Witness for C3 at concrete inputs: a whitespace-only entry is skipped by
the voice-assets loop, empty text aborts the typecast manifest load, and the
typecast loop invokes the call for whitespace-only text. -/
theorem empty_text_handling_witness :
    assetsStep ".mp3" false false (fun _ => false) (fun _ => .ok [7])
        initState ⟨"long", "c1", "  "⟩ =
      { initState with skipped := initState.skipped + 1 } ∧
    loadLine "greet" "hi" "" "mp3" none =
      .error ("Line in set '" ++ "greet" ++ "' must include key and text.") ∧
    typecastStep "out" false false (fun _ => false) (fun _ => .ok [7])
        initTState ⟨"k1", "f1.mp3", " "⟩ =
      .ok { initTState with planned := initTState.planned + 1,
                            generated := initTState.generated + 1,
                            written := initTState.written ++ ["out" ++ "/" ++ "f1.mp3"],
                            calls := initTState.calls ++ ["k1"],
                            events := initTState.events ++
                              [.writeBytes ("out" ++ "/" ++ "f1.mp3") [7]] } := by
  have h := empty_text_handling ".mp3" "out" false false false (fun _ => false)
    (fun _ => .ok [7]) (fun _ => .ok [7])
  exact ⟨h.1 initState ⟨"long", "c1", "  "⟩ (by decide) (by decide),
         h.2.1 "greet" "hi" "mp3" none,
         h.2.2.2 initTState ⟨"k1", "f1.mp3", " "⟩ [7] (by decide) rfl⟩

/-! ## Atomicity of the file writes (claim C4) -/

/-- A string that ends in one suffix (as its last character) cannot be an
append of another suffix whose last character differs. -/
theorem string_ne_append_suffix (s t : String)
    (h : s.data.getLast? ≠ t.data.getLast?) (ht : t.data ≠ []) :
    ∀ q : String, s ≠ q ++ t := by
  intro q he
  apply h
  have hd : s.data = q.data ++ t.data := by rw [he, String.data_append]
  rw [hd, List.getLast?_append]
  obtain ⟨c, hc⟩ := Option.isSome_iff_exists.mp (List.getLast?_isSome.mpr ht)
  rw [hc]
  rfl

/-- One colors-loop iteration only appends atomic-shaped events. -/
theorem colorsStep_events_atomic (ext : String) (force dryRun : Bool)
    (fs0 : String → Bool) (outcome : Entry → TtsOutcome) (s : RunState) (e : Entry)
    (hs : ∀ ev ∈ s.events, atomicShaped ev) :
    ∀ ev ∈ (colorsStep ext force dryRun fs0 outcome s e).events, atomicShaped ev := by
  unfold colorsStep
  cases force <;> cases dryRun <;>
      by_cases hex : fileExists fs0 s (entryDest ext e) = true <;>
      cases h3 : outcome e <;>
      simp only [hex, h3, Bool.not_true, Bool.not_false, Bool.and_true, Bool.and_false,
        if_true, if_false, Bool.false_eq_true, ite_true, ite_false]
  all_goals first
    | exact hs
    | · intro ev hev
        rcases List.mem_append.mp hev with h | h
        · exact hs ev h
        · simp only [atomicWriteEvents, List.mem_cons, List.mem_singleton,
            List.not_mem_nil] at h
          rcases h with h | h | h
          · exact Or.inl ⟨entryDest ext e, _, h⟩
          · exact Or.inr ⟨entryDest ext e, h⟩
          · exact absurd h (by simp)

/-- The whole colors run only appends atomic-shaped events. -/
theorem runColors_events_atomic (ext : String) (force dryRun : Bool)
    (fs0 : String → Bool) (outcome : Entry → TtsOutcome) (plan : List Entry) :
    ∀ s : RunState, (∀ ev ∈ s.events, atomicShaped ev) →
      ∀ ev ∈ (runColors ext force dryRun fs0 outcome plan s).events, atomicShaped ev := by
  induction plan with
  | nil => intro s hs; simpa [runColors] using hs
  | cons e rest ih =>
    intro s hs
    have h1 := colorsStep_events_atomic ext force dryRun fs0 outcome s e hs
    simpa [runColors] using ih (colorsStep ext force dryRun fs0 outcome s e) h1

/-- C4 counterexample: `typecast_batch_tts.py` writes the audio bytes with a
direct `Path.write_bytes` at the destination itself - no temporary sibling,
no rename - so a partially written file is visible at the final path during
the write.  The concrete one-item run produces exactly one event: a direct
`writeBytes` at `"out/f1.mp3"`, a path that is not a `".tmp"` sibling. -/
theorem typecast_writes_destination_directly :
    runTypecast "out" false false (fun _ => false) (fun _ => .ok [7])
        [⟨"k1", "f1.mp3", "hi"⟩] initTState =
      .ok ⟨1, 1, 0, ["out/f1.mp3"], ["k1"], [.writeBytes "out/f1.mp3" [7]]⟩ ∧
    (∀ q : String, "out/f1.mp3" ≠ q ++ ".tmp") :=
  ⟨rfl, string_ne_append_suffix "out/f1.mp3" ".tmp" (by decide) (by decide)⟩

/-- C4 (amended): in `generate_colors.py`, `generate_voice_assets.py` and
`generate_voice_assets_sample.py` every generated item is written by
`write_bytes_atomic`: every event of a run's trace is either a byte write to
a `".tmp"` temporary sibling or an atomic rename of that sibling onto its
destination; consequently no direct byte write ever targets a destination
path (any path that is not a `".tmp"` append).  `typecast_batch_tts.py`
violates the claim (see the counterexample). -/
theorem colors_atomic_write_pattern (ext : String) (force dryRun : Bool)
    (fs0 : String → Bool) (outcome : Entry → TtsOutcome) (plan : List Entry) :
    (∀ ev ∈ (runColors ext force dryRun fs0 outcome plan initState).events,
      atomicShaped ev) ∧
    (∀ p : String, (∀ q : String, p ≠ q ++ ".tmp") → ∀ d : List Nat,
      FsEvent.writeBytes p d ∉
        (runColors ext force dryRun fs0 outcome plan initState).events) := by
  have hall := runColors_events_atomic ext force dryRun fs0 outcome plan initState
    (by simp [initState])
  refine ⟨hall, ?_⟩
  intro p hp d hmem
  rcases hall _ hmem with ⟨q, d', hq⟩ | ⟨q, hq⟩
  · have : p = q ++ ".tmp" := by injection hq
    exact hp q this
  · exact FsEvent.noConfusion hq

/-- Witness for C4: a concrete one-item run whose trace is the temp write
followed by the rename, and the concrete destination receives no direct
write. -/
theorem colors_atomic_write_pattern_witness :
    (∀ ev ∈ (runColors ".mp3" false false (fun _ => false) (fun _ => .ok [7])
        [⟨"long", "c1", "x"⟩] initState).events, atomicShaped ev) ∧
    FsEvent.writeBytes "long/c1.mp3" [7] ∉
      (runColors ".mp3" false false (fun _ => false) (fun _ => .ok [7])
        [⟨"long", "c1", "x"⟩] initState).events :=
  ⟨(colors_atomic_write_pattern ".mp3" false false (fun _ => false) (fun _ => .ok [7])
      [⟨"long", "c1", "x"⟩]).1,
   (colors_atomic_write_pattern ".mp3" false false (fun _ => false) (fun _ => .ok [7])
      [⟨"long", "c1", "x"⟩]).2 "long/c1.mp3"
      (string_ne_append_suffix "long/c1.mp3" ".tmp" (by decide) (by decide)) [7]⟩

/-! ## Dry-run equivalence (claim C5) -/

/-- Relating a dry run and a real run of the colors loop from matching
states: the dry run's `generated` counts exactly the entries the real run
attempts (its `generated + failed`), skips match, and the dry run writes
nothing, calls nothing, and emits no events.  Distinct destinations are
required so that the real run's writes cannot flip a later exists-check. -/
theorem colors_dryrun_aux (ext : String) (force : Bool) (fs0 : String → Bool)
    (outcome : Entry → TtsOutcome) :
    ∀ (plan : List Entry) (sr sd : RunState),
      sd.written = [] →
      (∀ e ∈ plan, entryDest ext e ∉ sr.written) →
      (plan.map (entryDest ext)).Nodup →
      sd.skipped = sr.skipped →
      sd.generated = sr.generated + sr.failed →
      (runColors ext force true fs0 outcome plan sd).skipped =
        (runColors ext force false fs0 outcome plan sr).skipped ∧
      (runColors ext force true fs0 outcome plan sd).generated =
        (runColors ext force false fs0 outcome plan sr).generated +
          (runColors ext force false fs0 outcome plan sr).failed ∧
      (runColors ext force true fs0 outcome plan sd).written = sd.written ∧
      (runColors ext force true fs0 outcome plan sd).calls = sd.calls ∧
      (runColors ext force true fs0 outcome plan sd).events = sd.events := by
  intro plan
  induction plan with
  | nil =>
    intro sr sd h1 h2 h3 h4 h5
    exact ⟨h4, h5, rfl, rfl, rfl⟩
  | cons e rest ih =>
    intro sr sd h1 h2 h3 h4 h5
    simp only [runColors, List.foldl_cons] at ih ⊢
    have hdsd : fileExists fs0 sd (entryDest ext e) = fs0 (entryDest ext e) := by
      simp [fileExists, h1]
    have hdsr : fileExists fs0 sr (entryDest ext e) = fs0 (entryDest ext e) := by
      have hm : entryDest ext e ∉ sr.written := h2 e (List.mem_cons_self e rest)
      simp [fileExists, hm]
    have h3' : (∀ x ∈ rest, ¬entryDest ext x = entryDest ext e) ∧
        (rest.map (entryDest ext)).Nodup := by simpa using h3
    have hnd' : (rest.map (entryDest ext)).Nodup := h3'.2
    have hne : ∀ e' ∈ rest, entryDest ext e' ≠ entryDest ext e := h3'.1
    by_cases hc : (fs0 (entryDest ext e) && !force) = true
    · have hsd : colorsStep ext force true fs0 outcome sd e =
          { sd with skipped := sd.skipped + 1 } := by
        simp [colorsStep, hdsd, hc]
      have hsr : colorsStep ext force false fs0 outcome sr e =
          { sr with skipped := sr.skipped + 1 } := by
        simp [colorsStep, hdsr, hc]
      rw [hsd, hsr]
      exact ih { sr with skipped := sr.skipped + 1 } { sd with skipped := sd.skipped + 1 }
        (by simpa using h1)
        (fun e' he' => h2 e' (List.mem_cons_of_mem e he'))
        hnd' (by simpa using h4) (by simpa using h5)
    · have hsd : colorsStep ext force true fs0 outcome sd e =
          { sd with generated := sd.generated + 1 } := by
        simp [colorsStep, hdsd, hc]
      cases ho : outcome e with
      | ok audio =>
        have hsr : colorsStep ext force false fs0 outcome sr e =
            { sr with generated := sr.generated + 1,
                      written := sr.written ++ [entryDest ext e],
                      calls := sr.calls ++ [e.id],
                      events := sr.events ++ atomicWriteEvents (entryDest ext e) audio } := by
          simp [colorsStep, hdsr, hc, ho]
        rw [hsd, hsr]
        apply ih
        · simpa using h1
        · intro e' he'
          simp only [List.mem_append, List.mem_singleton, not_or]
          exact ⟨h2 e' (List.mem_cons_of_mem e he'), hne e' he'⟩
        · exact hnd'
        · simpa using h4
        · simp only []
          omega
      | exn m =>
        have hsr : colorsStep ext force false fs0 outcome sr e =
            { sr with failed := sr.failed + 1,
                      calls := sr.calls ++ [e.id],
                      errlog := sr.errlog ++ [(e.id, m)] } := by
          simp [colorsStep, hdsr, hc, ho]
        rw [hsd, hsr]
        apply ih
        · simpa using h1
        · intro e' he'
          exact h2 e' (List.mem_cons_of_mem e he')
        · exact hnd'
        · simpa using h4
        · simp only []
          omega

/-- C5 counterexample: the dry-run of `typecast_batch_tts.py` prints the
plan but never increments `generated` (it stays 0), while the real run over
the same one-item manifest attempts and generates 1 - so the dry run does
not end with the generated count a real run would attempt.  (Both runs build
the same plan, and the dry run still makes no calls and writes nothing.) -/
theorem typecast_dry_run_generated_zero :
    runTypecast "out" false true (fun _ => false) (fun _ => .ok [7])
        [⟨"k1", "f1.mp3", "hi"⟩] initTState = .ok ⟨1, 0, 0, [], [], []⟩ ∧
    runTypecast "out" false false (fun _ => false) (fun _ => .ok [7])
        [⟨"k1", "f1.mp3", "hi"⟩] initTState =
      .ok ⟨1, 1, 0, ["out/f1.mp3"], ["k1"], [.writeBytes "out/f1.mp3" [7]]⟩ :=
  ⟨rfl, rfl⟩

/-- C5 (amended): for the `generate_*` scripts (whose dry-run branch counts
every non-skipped entry as generated), when the plan's destination paths are
pairwise distinct (the data model requires unique ids per group), a dry run
ends with `generated` equal to the number of entries the real run attempts
(`generated + failed` of the real run) and the same `skipped`, while writing
no files, invoking no synthesis call, and emitting no file-system events.
The plan itself is built before the flag is consulted, hence identical.
`typecast_batch_tts.py` violates the generated-count part (see the
counterexample). -/
theorem colors_dry_run_equiv (ext : String) (force : Bool) (fs0 : String → Bool)
    (outcome : Entry → TtsOutcome) (plan : List Entry)
    (hnd : (plan.map (entryDest ext)).Nodup) :
    (runColors ext force true fs0 outcome plan initState).generated =
      (runColors ext force false fs0 outcome plan initState).generated +
        (runColors ext force false fs0 outcome plan initState).failed ∧
    (runColors ext force true fs0 outcome plan initState).skipped =
      (runColors ext force false fs0 outcome plan initState).skipped ∧
    (runColors ext force true fs0 outcome plan initState).written = [] ∧
    (runColors ext force true fs0 outcome plan initState).calls = [] ∧
    (runColors ext force true fs0 outcome plan initState).events = [] := by
  have h := colors_dryrun_aux ext force fs0 outcome plan initState initState
    rfl (by simp [initState]) hnd rfl rfl
  exact ⟨h.2.1, h.1, h.2.2.1, h.2.2.2.1, h.2.2.2.2⟩

/-- Witness for C5: a concrete two-entry plan with one success and one
failure; the dry run counts 2 generated, matching the real run's
1 generated + 1 failed. -/
theorem colors_dry_run_equiv_witness :
    (runColors ".mp3" false true (fun _ => false)
        (fun e => if e.id == "c1" then .ok [7] else .exn "boom")
        [⟨"long", "c1", "x"⟩, ⟨"long", "c2", "y"⟩] initState).generated =
      (runColors ".mp3" false false (fun _ => false)
          (fun e => if e.id == "c1" then .ok [7] else .exn "boom")
          [⟨"long", "c1", "x"⟩, ⟨"long", "c2", "y"⟩] initState).generated +
        (runColors ".mp3" false false (fun _ => false)
            (fun e => if e.id == "c1" then .ok [7] else .exn "boom")
            [⟨"long", "c1", "x"⟩, ⟨"long", "c2", "y"⟩] initState).failed ∧
    (runColors ".mp3" false true (fun _ => false)
        (fun e => if e.id == "c1" then .ok [7] else .exn "boom")
        [⟨"long", "c1", "x"⟩, ⟨"long", "c2", "y"⟩] initState).skipped =
      (runColors ".mp3" false false (fun _ => false)
          (fun e => if e.id == "c1" then .ok [7] else .exn "boom")
          [⟨"long", "c1", "x"⟩, ⟨"long", "c2", "y"⟩] initState).skipped ∧
    (runColors ".mp3" false true (fun _ => false)
        (fun e => if e.id == "c1" then .ok [7] else .exn "boom")
        [⟨"long", "c1", "x"⟩, ⟨"long", "c2", "y"⟩] initState).written = [] ∧
    (runColors ".mp3" false true (fun _ => false)
        (fun e => if e.id == "c1" then .ok [7] else .exn "boom")
        [⟨"long", "c1", "x"⟩, ⟨"long", "c2", "y"⟩] initState).calls = [] ∧
    (runColors ".mp3" false true (fun _ => false)
        (fun e => if e.id == "c1" then .ok [7] else .exn "boom")
        [⟨"long", "c1", "x"⟩, ⟨"long", "c2", "y"⟩] initState).events = [] :=
  colors_dry_run_equiv ".mp3" false (fun _ => false)
    (fun e => if e.id == "c1" then .ok [7] else .exn "boom")
    [⟨"long", "c1", "x"⟩, ⟨"long", "c2", "y"⟩] (by decide)

/-! ## The sampler (claim C1) -/

/-- Consing the last element onto the multiset of all-but-last recovers the
whole list as a multiset. -/
theorem cons_dropLast_toMultiset (l : List Utt) (h : l ≠ []) :
    l.getLastD default ::ₘ (↑l.dropLast : Multiset Utt) = (↑l : Multiset Utt) := by
  induction l with
  | nil => exact absurd rfl h
  | cons a t ih =>
    cases t with
    | nil => simp
    | cons b t' =>
      obtain ⟨c, hc⟩ := Option.isSome_iff_exists.mp
        (List.getLast?_isSome.mpr (by simp : (b :: t') ≠ ([] : List Utt)))
      have ih' := ih (by simp)
      rw [List.getLastD_eq_getLast?, hc] at ih'
      rw [List.getLastD_eq_getLast?, List.getLast?_cons_cons, hc]
      rw [List.dropLast_cons_of_ne_nil (by simp : (b :: t') ≠ ([] : List Utt))]
      simp only [Option.getD_some, ← Multiset.cons_coe] at ih' ⊢
      rw [Multiset.cons_swap, ih']

/-- The Fisher-Yates pool step preserves the multiset: taking `pool[j]` and
shrinking the pool (last element moved into slot `j`) splits the pool's
multiset. -/
theorem cons_set_dropLast_toMultiset (l : List Utt) :
    ∀ j : Nat, j < l.length →
      l.getD j default ::ₘ (↑((l.set j (l.getLastD default)).dropLast) : Multiset Utt) =
        (↑l : Multiset Utt) := by
  induction l with
  | nil => intro j hj; simp at hj
  | cons a t ih =>
    intro j hj
    cases j with
    | zero =>
      cases t with
      | nil => simp
      | cons b t' =>
        obtain ⟨c, hc⟩ := Option.isSome_iff_exists.mp
          (List.getLast?_isSome.mpr (by simp : (b :: t') ≠ ([] : List Utt)))
        have hstep := cons_dropLast_toMultiset (b :: t') (by simp)
        rw [List.getLastD_eq_getLast?, hc, Option.getD_some] at hstep
        rw [List.getLastD_eq_getLast?, List.getLast?_cons_cons, hc]
        simp only [Option.getD_some, List.getD_cons_zero, List.set_cons_zero]
        rw [List.dropLast_cons_of_ne_nil (by simp : (b :: t') ≠ ([] : List Utt))]
        simp only [← Multiset.cons_coe] at hstep ⊢
        rw [hstep]
    | succ j' =>
      cases t with
      | nil => simp at hj
      | cons b t' =>
        have hj' : j' < (b :: t').length := by simpa using hj
        obtain ⟨c, hc⟩ := Option.isSome_iff_exists.mp
          (List.getLast?_isSome.mpr (by simp : (b :: t') ≠ ([] : List Utt)))
        have hstep := ih j' hj'
        rw [List.getLastD_eq_getLast?, hc, Option.getD_some] at hstep
        rw [List.getLastD_eq_getLast?, List.getLast?_cons_cons, hc]
        simp only [Option.getD_some, List.getD_cons_succ, List.set_cons_succ]
        rw [List.dropLast_cons_of_ne_nil
          (by simp [← List.length_pos] : (b :: t').set j' c ≠ ([] : List Utt))]
        simp only [← Multiset.cons_coe] at hstep ⊢
        rw [Multiset.cons_swap ((b :: t').getD j' default) a, hstep]

/-- `Random.sample` returns exactly `k` items when `k` does not exceed the
pool size. -/
theorem pySample_length :
    ∀ (k : Nat) (pool : List Utt) (g : PyRandom), k ≤ pool.length →
      (pySample pool k g).1.length = k := by
  intro k
  induction k with
  | zero => intro pool g _; rfl
  | succ k' ih =>
    intro pool g h
    have hlen : ((pool.set (pyRandbelow g pool.length).1
        (pool.getLastD default)).dropLast).length = pool.length - 1 := by
      simp
    simp only [pySample, List.length_cons]
    rw [ih _ _ (by omega)]

/-- `Random.sample` draws without replacement: the result is a sub-multiset
of the pool. -/
theorem pySample_toMultiset_le :
    ∀ (k : Nat) (pool : List Utt) (g : PyRandom), k ≤ pool.length →
      ((pySample pool k g).1 : Multiset Utt) ≤ (↑pool : Multiset Utt) := by
  intro k
  induction k with
  | zero => intro pool g _; simp [pySample]
  | succ k' ih =>
    intro pool g h
    have hlen0 : 0 < pool.length := lt_of_lt_of_le (Nat.succ_pos k') h
    have hj : (pyRandbelow g pool.length).1 < pool.length := by
      simp only [pyRandbelow]
      exact Nat.mod_lt _ hlen0
    have hlen : ((pool.set (pyRandbelow g pool.length).1
        (pool.getLastD default)).dropLast).length = pool.length - 1 := by
      simp
    have hrec := ih ((pool.set (pyRandbelow g pool.length).1
        (pool.getLastD default)).dropLast) (pyRandbelow g pool.length).2 (by omega)
    calc ((pySample pool (k' + 1) g).1 : Multiset Utt)
        = pool.getD (pyRandbelow g pool.length).1 default ::ₘ
            ↑(pySample ((pool.set (pyRandbelow g pool.length).1
              (pool.getLastD default)).dropLast) k' (pyRandbelow g pool.length).2).1 := by
          simp [pySample]
      _ ≤ pool.getD (pyRandbelow g pool.length).1 default ::ₘ
            ↑((pool.set (pyRandbelow g pool.length).1 (pool.getLastD default)).dropLast) :=
          Multiset.cons_le_cons _ hrec
      _ = ↑pool := cons_set_dropLast_toMultiset pool _ hj

/-- C1 counterexample: for a singleton population and requested count 0 the
`sample` helper returns the empty list, not the full population - `k <= 0`
is treated as "select none", not "all". -/
theorem sample_zero_returns_empty :
    (sample [("c1", "blue")] 0 (mkRandom 42)).1 = [] ∧
    ([("c1", "blue")] : List Utt) ≠ [] :=
  ⟨rfl, by decide⟩

/-- C1 (amended): `sample(items, n, rng)` returns the empty list when
`n <= 0` or the population is empty; the full population in its original
order when `0 < n` and `n >= len(items)`; and otherwise `rng.sample`'s
result - exactly `n` items drawn without replacement (a sub-multiset of the
population) from the seeded generator. -/
theorem sample_spec (items : List Utt) (n : Int) (g : PyRandom) :
    (n ≤ 0 ∨ items = [] → sample items n g = ([], g)) ∧
    (0 < n → (items.length : Int) ≤ n → sample items n g = (items, g)) ∧
    (0 < n → n < (items.length : Int) →
      (sample items n g).1.length = n.toNat ∧
      ((sample items n g).1 : Multiset Utt) ≤ (↑items : Multiset Utt)) := by
  refine ⟨?_, ?_, ?_⟩
  · intro h
    simp [sample, h]
  · intro h1 h2
    by_cases he : items = []
    · subst he
      simp [sample]
    · have hcond : ¬(n ≤ 0 ∨ items = []) := by
        rintro (h | h)
        · omega
        · exact he h
      simp [sample, hcond, h2]
  · intro h1 h2
    have he : items ≠ [] := by
      intro h
      subst h
      simp at h2
      omega
    have hcond : ¬(n ≤ 0 ∨ items = []) := by
      rintro (h | h)
      · omega
      · exact he h
    have hcond2 : ¬((items.length : Int) ≤ n) := by omega
    have hbound : n.toNat ≤ items.length := by omega
    simp only [sample, hcond, hcond2, if_false, if_neg, not_false_iff]
    exact ⟨pySample_length n.toNat items g hbound,
           pySample_toMultiset_le n.toNat items g hbound⟩

/-- Witness for C1 at a concrete population of 3 and requested count 2: the
sample has exactly 2 items and is a sub-multiset of the population. -/
theorem sample_spec_witness :
    (sample [("a", "1"), ("b", "2"), ("c", "3")] 2 (mkRandom 7)).1.length = (2 : Int).toNat ∧
    ((sample [("a", "1"), ("b", "2"), ("c", "3")] 2 (mkRandom 7)).1 : Multiset Utt) ≤
      (↑([("a", "1"), ("b", "2"), ("c", "3")] : List Utt) : Multiset Utt) :=
  (sample_spec [("a", "1"), ("b", "2"), ("c", "3")] 2 (mkRandom 7)).2.2
    (by decide) (by decide)

/-! ## Derived filenames (claim C7) -/

/-- Big-endian decomposition produces exactly `k` bytes. -/
theorem beBytes_length : ∀ (k v : Nat), (beBytes k v).length = k := by
  intro k
  induction k with
  | zero => intro v; rfl
  | succ k' ih => intro v; simp [beBytes, ih]

/-- A SHA-1 digest has 20 bytes. -/
theorem sha1Bytes_length (m : List Nat) : (sha1Bytes m).length = 20 := by
  simp only [sha1Bytes]
  rcases hsb : sha1Blocks ((sha1Pad m).length / 64 + 1) (sha1Pad m)
      (1732584193, 4023233417, 2562383102, 271733878, 3285377520) with ⟨h0, h1, h2, h3, h4⟩
  simp [beBytes_length]

/-- A SHA-1 hexdigest has 40 characters. -/
theorem sha1HexChars_length (m : List Nat) : (sha1HexChars m).length = 40 := by
  have haux : ∀ l : List Nat, ((l.map byteHex).flatten).length = 2 * l.length := by
    intro l
    induction l with
    | nil => rfl
    | cons b t ih =>
      simp only [List.map_cons, List.flatten_cons, List.length_append, ih, byteHex,
        List.length_cons, List.length_nil]
      omega
  rw [sha1HexChars, haux, sha1Bytes_length]

/-- `short_hash` always returns 8 characters. -/
theorem shortHash_data_length (s : String) : (shortHash s).data.length = 8 := by
  show ((sha1HexChars (strBytes s)).take 8).length = 8
  rw [List.length_take, sha1HexChars_length]
  rfl

set_option maxRecDepth 100000 in
/-- C7 counterexample: changing the text does not always change the derived
filename's hash suffix: `short_hash` keeps only 8 hex digits (32 bits) of the
SHA-1, and the distinct texts `"t55281"` and `"t68564"` collide on that
prefix, so the derived filenames coincide for a fixed (set, key, format). -/
theorem filename_hash_collision :
    ("t55281" : String) ≠ "t68564" ∧
    shortHash "t55281" = shortHash "t68564" ∧
    lineFilename "greet" "hi" "t55281" "mp3" none =
      lineFilename "greet" "hi" "t68564" "mp3" none := by
  have h : shortHash "t55281" = shortHash "t68564" := by decide
  exact ⟨by decide, h, by simp only [lineFilename, h]⟩

/-- C7 (amended): for manifest lines without an explicit filename the
derived filename is a pure function of (set, key, text, output_format):
identical inputs always give the identical filename; and changing the text
while holding (set, key, format) fixed changes the filename whenever the
texts' truncated 8-hex-digit SHA-1 prefixes differ (the 32-bit truncation
admits collisions - see the counterexample - in which case the filename is
unchanged). -/
theorem filename_derivation_spec (setName key t t' fmt : String) :
    (t = t' → lineFilename setName key t fmt none = lineFilename setName key t' fmt none) ∧
    (shortHash t ≠ shortHash t' →
      lineFilename setName key t fmt none ≠ lineFilename setName key t' fmt none) := by
  constructor
  · intro h
    rw [h]
  · intro hne heq
    apply hne
    have hd := congrArg String.data heq
    simp only [lineFilename, String.data_append, List.append_assoc] at hd
    have h1 := List.append_cancel_left hd
    have h2 := List.append_cancel_left h1
    have h3 := (List.append_inj h2
      (by rw [shortHash_data_length, shortHash_data_length])).1
    exact String.ext h3

set_option maxRecDepth 100000 in
/-- Witness for C7: two texts with different hash prefixes give different
derived filenames. -/
theorem filename_derivation_spec_witness :
    lineFilename "greet" "hi" "Hello" "mp3" none ≠
      lineFilename "greet" "hi" "Bye" "mp3" none :=
  (filename_derivation_spec "greet" "hi" "Hello" "Bye" "mp3").2 (by decide)

/-! ## Slugify (claim C10) -/

/-- Char order agrees with the code-point order. -/
theorem char_le_toNat (x y : Char) : x ≤ y ↔ x.toNat ≤ y.toNat := by
  rw [Char.le_def, UInt32.le_def, BitVec.le_def]
  rfl

/-- `Char.ofNat` below the surrogate range keeps the code point. -/
theorem char_ofNat_toNat (n : Nat) (h : n < 55296) : (Char.ofNat n).toNat = n := by
  unfold Char.ofNat
  split
  · rfl
  · rename_i hn
    exact absurd (Or.inl h) hn

/-- Every character kept by the unsafe-run substitution is safe and comes
from the input, or is the substituted dash. -/
theorem subUnsafeGo_chars (l : List Char) :
    ∀ (b : Bool) (c : Char), c ∈ subUnsafeGo b l →
      (isSafeChar c = true ∧ c ∈ l) ∨ c = '-' := by
  induction l with
  | nil => intro b c h; simp [subUnsafeGo] at h
  | cons a t ih =>
    intro b c h
    by_cases ha : isSafeChar a = true
    · rw [subUnsafeGo, if_pos ha] at h
      rcases List.mem_cons.mp h with h | h
      · rw [h]
        exact Or.inl ⟨ha, List.mem_cons_self a t⟩
      · rcases ih false c h with ⟨h1, h2⟩ | h1
        · exact Or.inl ⟨h1, List.mem_cons_of_mem a h2⟩
        · exact Or.inr h1
    · rw [subUnsafeGo, if_neg ha] at h
      cases b with
      | true =>
        rw [if_pos rfl] at h
        rcases ih true c h with ⟨h1, h2⟩ | h1
        · exact Or.inl ⟨h1, List.mem_cons_of_mem a h2⟩
        · exact Or.inr h1
      | false =>
        rw [if_neg (by simp)] at h
        rcases List.mem_cons.mp h with h | h
        · exact Or.inr h
        · rcases ih true c h with ⟨h1, h2⟩ | h1
          · exact Or.inl ⟨h1, List.mem_cons_of_mem a h2⟩
          · exact Or.inr h1

/-- A safe character surviving the ASCII lowering is in the slug's output
class (lowercase, digit, or `.`, `_`, `-`). -/
theorem isSafeOut_of_safe_lowered (c : Char)
    (h : isSafeChar (pyLowerChar c) = true) :
    isSafeOutChar (pyLowerChar c) = true := by
  unfold pyLowerChar at h ⊢
  by_cases hu : ('A' ≤ c && c ≤ 'Z') = true
  · rw [if_pos hu] at h ⊢
    have hu' := (Bool.and_eq_true _ _).mp hu
    have hlo : 65 ≤ c.toNat := (char_le_toNat 'A' c).mp (of_decide_eq_true hu'.1)
    have hhi : c.toNat ≤ 90 := (char_le_toNat c 'Z').mp (of_decide_eq_true hu'.2)
    have hv : (Char.ofNat (c.toNat + 32)).toNat = c.toNat + 32 :=
      char_ofNat_toNat _ (by omega)
    have h1 : 'a' ≤ Char.ofNat (c.toNat + 32) := by
      rw [char_le_toNat, hv]
      show 97 ≤ c.toNat + 32
      omega
    have h2 : Char.ofNat (c.toNat + 32) ≤ 'z' := by
      rw [char_le_toNat, hv]
      show c.toNat + 32 ≤ 122
      omega
    simp [isSafeOutChar, h1, h2]
  · rw [if_neg hu] at h ⊢
    have hu' : ('A' ≤ c && c ≤ 'Z') = false := by
      simpa using hu
    unfold isSafeChar at h
    rw [hu'] at h
    simp only [Bool.false_or, Bool.or_false] at h
    exact h

/-- The head of a `dropWhile` result falsifies the predicate. -/
theorem head?_dropWhile_not (p : Char → Bool) (l : List Char) :
    ∀ c, (l.dropWhile p).head? = some c → p c = false := by
  induction l with
  | nil => intro c h; simp [List.dropWhile] at h
  | cons a t ih =>
    intro c h
    by_cases ha : p a = true
    · rw [List.dropWhile_cons_of_pos ha] at h
      exact ih c h
    · rw [List.dropWhile_cons_of_neg ha] at h
      simp only [List.head?_cons, Option.some.injEq] at h
      subst h
      simpa using ha

/-- The first character after the dash strip is not a dash. -/
theorem stripDashes_head? (l : List Char) (c : Char)
    (h : (stripDashes l).head? = some c) : (c == '-') = false := by
  unfold stripDashes at h
  rw [List.head?_reverse] at h
  obtain ⟨pre, hpre⟩ :=
    List.dropWhile_suffix (l := (l.dropWhile (· == '-')).reverse) (· == '-')
  have hxne : (l.dropWhile (· == '-')).reverse.dropWhile (· == '-') ≠ [] := by
    intro hx0
    rw [hx0] at h
    simp at h
  have hgl : ((l.dropWhile (· == '-')).reverse).getLast? =
      ((l.dropWhile (· == '-')).reverse.dropWhile (· == '-')).getLast? := by
    conv_lhs => rw [← hpre]
    rw [List.getLast?_append]
    obtain ⟨c', hc'⟩ := Option.isSome_iff_exists.mp (List.getLast?_isSome.mpr hxne)
    rw [hc']
    rfl
  rw [← hgl, List.getLast?_reverse] at h
  exact head?_dropWhile_not _ l c h

/-- The last character after the dash strip is not a dash. -/
theorem stripDashes_getLast? (l : List Char) (c : Char)
    (h : (stripDashes l).getLast? = some c) : (c == '-') = false := by
  unfold stripDashes at h
  rw [List.getLast?_reverse] at h
  exact head?_dropWhile_not _ _ c h

/-- Dash-stripping only keeps characters of the input. -/
theorem mem_stripDashes (c : Char) (l : List Char) (h : c ∈ stripDashes l) : c ∈ l := by
  unfold stripDashes at h
  rw [List.mem_reverse] at h
  have h1 := (List.dropWhile_suffix (· == '-')).subset h
  rw [List.mem_reverse] at h1
  exact (List.dropWhile_suffix (· == '-')).subset h1

/-- Taking a positive-length prefix preserves the head. -/
theorem head?_take_pos (n : Nat) (hn : 0 < n) (l : List Char) :
    (l.take n).head? = l.head? := by
  cases l <;> cases n <;> simp_all

set_option maxRecDepth 10000 in
/-- C10 counterexample: `slugify` truncates to 80 characters AFTER stripping
dashes, so an input whose slug's 80th character is a dash yields a trailing
dash: 79 `a`s then `-b` slugifies to 79 `a`s followed by `-`. -/
theorem slugify_trailing_dash :
    ((slugify (String.mk (List.replicate 79 'a' ++ ['-', 'b']))).data.getLast? =
      some '-') ∧
    (slugify (String.mk (List.replicate 79 'a' ++ ['-', 'b']))).length = 80 := by
  constructor <;> decide

/-- C10 (amended): for every input, `slugify` returns at most 80 characters,
all from the class lowercase/digit/`.`/`_`/`-`, with no leading dash; the
result also has no trailing dash provided the slug before the final
truncation is at most 80 characters long (otherwise the truncation can
expose one - see the counterexample). -/
theorem slugify_spec (s : String) :
    (slugify s).length ≤ 80 ∧
    (∀ c ∈ (slugify s).data, isSafeOutChar c = true) ∧
    (∀ c, (slugify s).data.head? = some c → c ≠ '-') ∧
    ((slugFull s).length ≤ 80 →
      ∀ c, (slugify s).data.getLast? = some c → c ≠ '-') := by
  refine ⟨?_, ?_, ?_, ?_⟩
  · show ((slugFull s).take 80).length ≤ 80
    rw [List.length_take]
    exact Nat.min_le_left 80 _
  · intro c hc
    have hc1 : c ∈ slugFull s := (List.take_sublist 80 _).mem hc
    have hc2 := mem_stripDashes c _ hc1
    rcases subUnsafeGo_chars _ false c hc2 with ⟨h1, h2⟩ | h1
    · obtain ⟨c0, _, hc0⟩ := List.mem_map.mp h2
      subst hc0
      exact isSafeOut_of_safe_lowered c0 h1
    · subst h1
      decide
  · intro c h
    rw [show (slugify s).data = (slugFull s).take 80 from rfl,
      head?_take_pos 80 (by omega)] at h
    have := stripDashes_head? _ c h
    simpa using this
  · intro hle c h
    rw [show (slugify s).data = (slugFull s).take 80 from rfl,
      List.take_of_length_le hle] at h
    have := stripDashes_getLast? _ c h
    simpa using this

/-- Witness for C10 at a concrete input: the slug of a mixed-case punctuated
string keeps safe characters only and neither starts nor ends with a dash. -/
theorem slugify_spec_witness :
    isSafeOutChar 'h' = true ∧ ('h' : Char) ≠ '-' ∧ ('d' : Char) ≠ '-' :=
  ⟨(slugify_spec "  Hello, World!  ").2.1 'h' (by decide),
   (slugify_spec "  Hello, World!  ").2.2.1 'h' (by decide),
   (slugify_spec "  Hello, World!  ").2.2.2 (by decide) 'd' (by decide)⟩

end Luluco

